import Mathlib

/-!
# Verification of `sw_utils/consensus.py`

Shallow embedding of the fallback beacon-chain client in
`src/sw_utils/consensus.py` (package `sw-utils`), together with proofs of the
specification's claims about it.

The Python module defines:
* the constant `GET_VALIDATORS = '/eth/v1/beacon/states/{0}/validators{1}'`;
* the enumeration `ValidatorStatus` with nine values and the three group
  lists `PENDING_STATUSES`, `ACTIVE_STATUSES`, `EXITED_STATUSES`;
* class `ExtendedAsyncBeacon` holding `base_urls`, `timeout`, `session`,
  with methods `get_validators_by_ids`, `submit_voluntary_exit` and
  `_async_make_get_request`, the latter two containing the sequential
  failover loop;
* `get_consensus_client`, a thin constructor wrapper.

Network I/O is embedded by an oracle `attempt : Nat → AttemptResult ε ρ`
giving the outcome the transport produces for the i-th loop iteration;
the executor's observable behaviour is collected in an `ExecTrace`:
the returned/raised result, the `logger.error` calls, and the requests
issued through the transport (in order, with the parameters the code
passes to the transport).
-/

set_option autoImplicit false

namespace SwUtils

/-- The nine validator statuses of the `ValidatorStatus` enum in
`consensus.py` (lines 20-31). -/
inductive ValidatorStatus where
  | PENDING_INITIALIZED
  | PENDING_QUEUED
  | ACTIVE_ONGOING
  | ACTIVE_EXITING
  | ACTIVE_SLASHED
  | EXITED_UNSLASHED
  | EXITED_SLASHED
  | WITHDRAWAL_POSSIBLE
  | WITHDRAWAL_DONE
deriving DecidableEq, Repr, Fintype

/-- The string value attached to each enum member in the Python source. -/
def ValidatorStatus.value : ValidatorStatus → String
  | .PENDING_INITIALIZED => "pending_initialized"
  | .PENDING_QUEUED => "pending_queued"
  | .ACTIVE_ONGOING => "active_ongoing"
  | .ACTIVE_EXITING => "active_exiting"
  | .ACTIVE_SLASHED => "active_slashed"
  | .EXITED_UNSLASHED => "exited_unslashed"
  | .EXITED_SLASHED => "exited_slashed"
  | .WITHDRAWAL_POSSIBLE => "withdrawal_possible"
  | .WITHDRAWAL_DONE => "withdrawal_done"

/-- `PENDING_STATUSES` (consensus.py line 34). -/
def PENDING_STATUSES : List ValidatorStatus :=
  [ValidatorStatus.PENDING_INITIALIZED, ValidatorStatus.PENDING_QUEUED]

/-- `ACTIVE_STATUSES` (consensus.py lines 35-39). -/
def ACTIVE_STATUSES : List ValidatorStatus :=
  [ValidatorStatus.ACTIVE_ONGOING,
   ValidatorStatus.ACTIVE_EXITING,
   ValidatorStatus.ACTIVE_SLASHED]

/-- `EXITED_STATUSES` (consensus.py lines 40-45). -/
def EXITED_STATUSES : List ValidatorStatus :=
  [ValidatorStatus.EXITED_UNSLASHED,
   ValidatorStatus.EXITED_SLASHED,
   ValidatorStatus.WITHDRAWAL_POSSIBLE,
   ValidatorStatus.WITHDRAWAL_DONE]

/-- `GET_VALIDATORS.format(state_id, suffix)` for the template
`'/eth/v1/beacon/states/\x7b0\x7d/validators\x7b1\x7d'` (consensus.py line 17). -/
def GET_VALIDATORS_format (state_id suffix : String) : String :=
  "/eth/v1/beacon/states/" ++ state_id ++ "/validators" ++ suffix

/-- The `GET_VOLUNTARY_EXITS` path constant imported from
`web3.beacon.api_endpoints` (upstream library; the spec gives the path as
`/eth/v1/beacon/pool/voluntary_exits`). -/
def GET_VOLUNTARY_EXITS : String := "/eth/v1/beacon/pool/voluntary_exits"

/-- The inner `'message'` dict of the voluntary-exit POST body:
`\x7b'epoch': str(epoch), 'validator_index': str(validator_index)\x7d`. -/
structure VoluntaryExitMessage where
  epoch : String
  validator_index : String
deriving DecidableEq, Repr

/-- The voluntary-exit POST body
`\x7b'message': ..., 'signature': signature\x7d` (consensus.py lines 75-78). -/
structure VoluntaryExitData where
  message : VoluntaryExitMessage
  signature : String
deriving DecidableEq, Repr

/-- The `data` dict built by `submit_voluntary_exit` (consensus.py lines
75-78): epoch and validator index are converted with `str(...)`
(decimal rendering, which is what `toString : Int → String` produces),
the signature is passed through unchanged. -/
def voluntary_exit_data (epoch validator_index : Int) (signature : String) :
    VoluntaryExitData :=
  { message := { epoch := toString epoch, validator_index := toString validator_index },
    signature := signature }

/-- JSON rendering of the voluntary-exit body with `json.dumps` default
separators (as used by `aiohttp` for `json=data`).  Hex signatures and
decimal digit strings need no JSON escaping, so plain splicing is exact
for the values the code ever puts in these fields. -/
def VoluntaryExitData.render (d : VoluntaryExitData) : String :=
  "\x7b\"message\": \x7b\"epoch\": \"" ++ d.message.epoch ++
    "\", \"validator_index\": \"" ++ d.message.validator_index ++
    "\"\x7d, \"signature\": \"" ++ d.signature ++ "\"\x7d"

/-- Parameters the executor hands to the transport for one endpoint attempt.
`url` is the base endpoint from `base_urls`; `path` is the request path
(the full URI in the code is `urljoin(url, path)`); `timeout` is the value
passed to the transport for this request, `none` when the code passes no
timeout at all; `uses_shared_session` records whether the request goes
through the shared `self.session` (the `_make_session_get_request` branch);
`body` is the JSON body for POST requests. -/
structure IssuedRequest where
  method : String
  url : String
  path : String
  timeout : Option Nat
  uses_shared_session : Bool
  body : Option VoluntaryExitData
deriving DecidableEq, Repr

/-- Outcome the environment produces for one endpoint attempt:
a successful response, an exception in `AiohttpRecoveredErrors`
(caught by the loop), or any other exception (propagates uncaught). -/
inductive AttemptResult (ε ρ : Type) where
  | success (r : ρ)
  | recoverable (e : ε)
  | fatal (e : ε)
deriving DecidableEq, Repr

/-- How a call to the executor terminates: a returned value or a raised
exception. -/
inductive RunResult (ε ρ : Type) where
  | ok (r : ρ)
  | raised (e : ε)
deriving DecidableEq, Repr

/-- Observable behaviour of one executor call: its termination, the
`logger.error('%s: %s', url, repr(error))` calls in order (as
url/error pairs), and the requests issued through the transport in order. -/
structure ExecTrace (ε ρ : Type) where
  result : RunResult ε ρ
  log : List (String × ε)
  requests : List IssuedRequest
deriving DecidableEq, Repr

/-- The state `ExtendedAsyncBeacon.__init__` captures (consensus.py lines
56-65): the ordered endpoint list, the timeout (default 60) and whether an
optional shared `aiohttp.ClientSession` was provided. -/
structure ExtendedAsyncBeacon where
  base_urls : List String
  timeout : Nat
  session : Bool
deriving DecidableEq, Repr

/-- `get_consensus_client(endpoints, timeout, session)` (consensus.py lines
115-118): builds the client from its arguments unchanged. -/
def get_consensus_client (endpoints : List String) (timeout : Nat := 60)
    (session : Bool := false) : ExtendedAsyncBeacon :=
  { base_urls := endpoints, timeout := timeout, session := session }

/-- A `dict[str, Any]` response, as an association list; `\x7b\x7d` is `[]`. -/
abbrev Dict (ρ : Type) : Type := List (String × ρ)

/-- The sequential failover loop shared verbatim (up to the request issued
and the value produced on success / fall-through) by
`_async_make_get_request` (consensus.py lines 93-106) and
`submit_voluntary_exit` (lines 79-91):

`for i, url in enumerate(self.base_urls):` — `i` is the index argument,
the list argument is the remaining suffix of `base_urls`; each iteration
issues `mkReq url` to the transport and inspects the oracle `attempt i`:
* `success r` — the `return` inside `try`: the loop returns `r`;
* `fatal e` — an exception outside `AiohttpRecoveredErrors`: propagates;
* `recoverable e` — caught: `if i == len(self.base_urls) - 1: raise error`,
  else `logger.error('%s: %s', url, repr(error))` and continue.

When the loop exhausts the list (only possible when `base_urls` is empty,
given the last-index re-raise), the function returns `onExhausted`
(`return \x7b\x7d` for the read, the implicit `return None` for the write). -/
def failover {ε ρ : Type} (mkReq : String → IssuedRequest)
    (onExhausted : RunResult ε ρ) (total : Nat)
    (attempt : Nat → AttemptResult ε ρ) :
    Nat → List String → ExecTrace ε ρ
  | _, [] => { result := onExhausted, log := [], requests := [] }
  | i, url :: rest =>
    match attempt i with
    | .success r => { result := .ok r, log := [], requests := [mkReq url] }
    | .fatal e => { result := .raised e, log := [], requests := [mkReq url] }
    | .recoverable e =>
      if i = total - 1 then
        { result := .raised e, log := [], requests := [mkReq url] }
      else
        let t := failover mkReq onExhausted total attempt (i + 1) rest
        { result := t.result, log := (url, e) :: t.log,
          requests := mkReq url :: t.requests }

/-- `_async_make_get_request(endpoint_uri)` (consensus.py lines 93-106):
runs the failover loop over `base_urls`; each attempt is a GET for
`urljoin(url, endpoint_uri)` issued with `timeout=self.timeout` — through
the shared session when one is configured (`_make_session_get_request`,
lines 108-114, which uses `aiohttp.ClientTimeout(total=self.timeout)`),
otherwise via `async_json_make_get_request(uri, timeout=self.timeout)`.
Falling out of the loop returns the empty dict (`return \x7b\x7d`). -/
def async_make_get_request {ε ρ : Type} (c : ExtendedAsyncBeacon)
    (endpoint_uri : String) (attempt : Nat → AttemptResult ε (Dict ρ)) :
    ExecTrace ε (Dict ρ) :=
  failover
    (fun url =>
      { method := "GET", url := url, path := endpoint_uri,
        timeout := some c.timeout, uses_shared_session := c.session,
        body := none })
    (.ok []) c.base_urls.length attempt 0 c.base_urls

/-- `get_validators_by_ids(validator_ids, state_id='head')` (consensus.py
lines 68-70): builds the endpoint
`GET_VALIDATORS.format(state_id, f"?id=\x7b'&id='.join(validator_ids)\x7d")`
and delegates to `_async_make_get_request`. -/
def get_validators_by_ids {ε ρ : Type} (c : ExtendedAsyncBeacon)
    (validator_ids : List String) (state_id : String := "head")
    (attempt : Nat → AttemptResult ε (Dict ρ) := fun _ => .success []) :
    ExecTrace ε (Dict ρ) :=
  async_make_get_request c
    (GET_VALIDATORS_format state_id ("?id=" ++ String.intercalate "&id=" validator_ids))
    attempt

/-- `submit_voluntary_exit(epoch, validator_index, signature)` (consensus.py
lines 72-91): builds the `data` body, then runs the failover loop; each
attempt opens a fresh `aiohttp.ClientSession()` (never the shared one) and
POSTs `json=data` to `urljoin(url, GET_VOLUNTARY_EXITS)` with no timeout
argument.  A 2xx response returns `None`; `raise_for_status()` turns
non-2xx into a recoverable error.  Falling out of the loop (empty
`base_urls`) implicitly returns `None` as well.  The returned pair is
(the body sent, the execution trace). -/
def submit_voluntary_exit {ε : Type} (c : ExtendedAsyncBeacon)
    (epoch validator_index : Int) (signature : String)
    (attempt : Nat → AttemptResult ε Unit) :
    VoluntaryExitData × ExecTrace ε Unit :=
  let data := voluntary_exit_data epoch validator_index signature
  (data,
   failover
     (fun url =>
       { method := "POST", url := url, path := GET_VOLUNTARY_EXITS,
         timeout := none, uses_shared_session := false,
         body := some data })
     (.ok ()) c.base_urls.length attempt 0 c.base_urls)

/-- One-step unfolding of `failover` for a recoverable failure at a
non-last index: the iteration logs and recurses on the remaining suffix. -/
theorem failover_cons_recoverable {ε ρ : Type} (mkReq : String → IssuedRequest)
    (onExhausted : RunResult ε ρ) (total : Nat) (attempt : Nat → AttemptResult ε ρ)
    (i : Nat) (url : String) (rest : List String) (e : ε)
    (h : attempt i = .recoverable e) (hi : ¬ i = total - 1) :
    failover mkReq onExhausted total attempt i (url :: rest) =
      { result := (failover mkReq onExhausted total attempt (i + 1) rest).result,
        log := (url, e) :: (failover mkReq onExhausted total attempt (i + 1) rest).log,
        requests :=
          mkReq url :: (failover mkReq onExhausted total attempt (i + 1) rest).requests } := by
  conv_lhs => rw [failover]
  rw [h]
  simp [hi]

/-- When every attempt on the suffix `l` (starting at loop index `i`) fails
recoverably, the loop re-raises the error of the last index, logs exactly
one entry per element of `l` except the last (in order), and issues one
request per element of `l`. -/
theorem failover_allRecoverable {ε ρ : Type} (mkReq : String → IssuedRequest)
    (onExhausted : RunResult ε ρ) (total : Nat) (attempt : Nat → AttemptResult ε ρ)
    (e : Nat → ε) :
    ∀ (l : List String) (i : Nat), l ≠ [] → i + l.length = total →
      (∀ j, j < l.length → attempt (i + j) = .recoverable (e (i + j))) →
      failover mkReq onExhausted total attempt i l =
        { result := .raised (e (total - 1)),
          log := (List.range (l.length - 1)).map (fun j => (l.getD j "", e (i + j))),
          requests := l.map mkReq } := by
  intro l
  induction l with
  | nil => intro i hne _ _; exact absurd rfl hne
  | cons url rest ih =>
    intro i _ htot hrec
    have h0 : attempt i = .recoverable (e i) := by
      have h := hrec 0 (by simp)
      simpa using h
    cases rest with
    | nil =>
      have hi : i = total - 1 := by simp at htot; omega
      subst hi
      simp [failover, h0]
    | cons b rest' =>
      have hi : ¬ i = total - 1 := by simp at htot; omega
      have ht : failover mkReq onExhausted total attempt (i + 1) (b :: rest') =
          { result := .raised (e (total - 1)),
            log := (List.range ((b :: rest').length - 1)).map
              (fun j => ((b :: rest').getD j "", e (i + 1 + j))),
            requests := (b :: rest').map mkReq } := by
        refine ih (i + 1) (by simp) (by simp at htot ⊢; omega) ?_
        intro j hj
        have h := hrec (j + 1) (by simp at hj ⊢; omega)
        have harg : i + (j + 1) = i + 1 + j := by omega
        rwa [harg] at h
      rw [failover_cons_recoverable mkReq onExhausted total attempt i url (b :: rest')
        (e i) h0 hi, ht]
      simp only [ExecTrace.mk.injEq]
      refine ⟨by trivial, ?_, by simp⟩
      simp only [List.length_cons, Nat.add_sub_cancel, List.range_succ_eq_map,
        List.map_cons, List.map_map, List.getD_cons_zero, Nat.add_zero,
        List.cons.injEq, Function.comp]
      refine ⟨by trivial, ?_⟩
      apply List.map_congr_left
      intro j _
      have h1 : i + (j + 1) = i + 1 + j := by omega
      simp [List.getD_cons_succ, h1]

/-- When every attempt on the suffix `l` before the last fails recoverably
and the attempt at the last index succeeds with `r`, the loop returns `r`,
logs exactly one entry per element of `l` except the last (in order), and
issues one request per element of `l`. -/
theorem failover_lastSuccess {ε ρ : Type} (mkReq : String → IssuedRequest)
    (onExhausted : RunResult ε ρ) (total : Nat) (attempt : Nat → AttemptResult ε ρ)
    (e : Nat → ε) (r : ρ) :
    ∀ (l : List String) (i : Nat), l ≠ [] → i + l.length = total →
      (∀ j, j < l.length - 1 → attempt (i + j) = .recoverable (e (i + j))) →
      attempt (total - 1) = .success r →
      failover mkReq onExhausted total attempt i l =
        { result := .ok r,
          log := (List.range (l.length - 1)).map (fun j => (l.getD j "", e (i + j))),
          requests := l.map mkReq } := by
  intro l
  induction l with
  | nil => intro i hne _ _ _; exact absurd rfl hne
  | cons url rest ih =>
    intro i _ htot hrec hsucc
    cases rest with
    | nil =>
      have hi : i = total - 1 := by simp at htot; omega
      subst hi
      simp [failover, hsucc]
    | cons b rest' =>
      have hi : ¬ i = total - 1 := by simp at htot; omega
      have h0 : attempt i = .recoverable (e i) := by
        have h := hrec 0 (by simp)
        simpa using h
      have ht : failover mkReq onExhausted total attempt (i + 1) (b :: rest') =
          { result := .ok r,
            log := (List.range ((b :: rest').length - 1)).map
              (fun j => ((b :: rest').getD j "", e (i + 1 + j))),
            requests := (b :: rest').map mkReq } := by
        refine ih (i + 1) (by simp) (by simp at htot ⊢; omega) ?_ hsucc
        intro j hj
        have h := hrec (j + 1) (by simp at hj ⊢; omega)
        have harg : i + (j + 1) = i + 1 + j := by omega
        rwa [harg] at h
      rw [failover_cons_recoverable mkReq onExhausted total attempt i url (b :: rest')
        (e i) h0 hi, ht]
      simp only [ExecTrace.mk.injEq]
      refine ⟨by trivial, ?_, by simp⟩
      simp only [List.length_cons, Nat.add_sub_cancel, List.range_succ_eq_map,
        List.map_cons, List.map_map, List.getD_cons_zero, Nat.add_zero,
        List.cons.injEq, Function.comp]
      refine ⟨by trivial, ?_⟩
      apply List.map_congr_left
      intro j _
      have h1 : i + (j + 1) = i + 1 + j := by omega
      simp [List.getD_cons_succ, h1]

/-- On a non-empty suffix, the first request the loop issues targets the
first endpoint of the suffix, whatever the attempt outcomes are. -/
theorem failover_requests_head {ε ρ : Type} (mkReq : String → IssuedRequest)
    (onExhausted : RunResult ε ρ) (total : Nat) (attempt : Nat → AttemptResult ε ρ)
    (url : String) (rest : List String) (i : Nat) :
    (failover mkReq onExhausted total attempt i (url :: rest)).requests.head? =
      some (mkReq url) := by
  cases h : attempt i with
  | success r => simp [failover, h]
  | fatal e => simp [failover, h]
  | recoverable e =>
    by_cases hi : i = total - 1
    · subst hi; simp [failover, h]
    · simp [failover, h, hi]

/-- Every request the loop issues is `mkReq url` for some endpoint `url`
of the suffix it iterates over. -/
theorem failover_requests_mem {ε ρ : Type} (mkReq : String → IssuedRequest)
    (onExhausted : RunResult ε ρ) (total : Nat) (attempt : Nat → AttemptResult ε ρ) :
    ∀ (l : List String) (i : Nat) (q : IssuedRequest),
      q ∈ (failover mkReq onExhausted total attempt i l).requests →
      ∃ url, url ∈ l ∧ q = mkReq url := by
  intro l
  induction l with
  | nil => intro i q hq; simp [failover] at hq
  | cons url rest ih =>
    intro i q hq
    cases h : attempt i with
    | success r =>
      simp [failover, h] at hq
      exact ⟨url, by simp, hq⟩
    | fatal e =>
      simp [failover, h] at hq
      exact ⟨url, by simp, hq⟩
    | recoverable e =>
      by_cases hi : i = total - 1
      · subst hi
        simp [failover, h] at hq
        exact ⟨url, by simp, hq⟩
      · simp only [failover, h, hi, if_false, List.mem_cons] at hq
        cases hq with
        | inl h1 => exact ⟨url, by simp, h1⟩
        | inr h2 =>
          obtain ⟨u, hu, hqu⟩ := ih (i + 1) q h2
          exact ⟨u, by simp [hu], hqu⟩

end SwUtils

namespace SwUtils

/-- Claim C9: every `ValidatorStatus` belongs to exactly one of
`PENDING_STATUSES`, `ACTIVE_STATUSES`, `EXITED_STATUSES`, and the three
groups together cover the whole enumeration. -/
theorem validator_status_partition (s : ValidatorStatus) :
    (s ∈ PENDING_STATUSES ∧ s ∉ ACTIVE_STATUSES ∧ s ∉ EXITED_STATUSES) ∨
    (s ∉ PENDING_STATUSES ∧ s ∈ ACTIVE_STATUSES ∧ s ∉ EXITED_STATUSES) ∨
    (s ∉ PENDING_STATUSES ∧ s ∉ ACTIVE_STATUSES ∧ s ∈ EXITED_STATUSES) := by
  cases s <;> decide

/-- Claim C1: when every endpoint's attempt fails with a recoverable error,
`_async_make_get_request` (hence `get_validators_by_ids`) raises the error
produced by the last endpoint in list order, not an earlier endpoint's
error. -/
theorem read_raises_last_error {ε ρ : Type} (c : ExtendedAsyncBeacon)
    (endpoint_uri : String) (attempt : Nat → AttemptResult ε (Dict ρ))
    (e : Nat → ε) (hne : c.base_urls ≠ [])
    (hrec : ∀ i, i < c.base_urls.length → attempt i = .recoverable (e i)) :
    (async_make_get_request c endpoint_uri attempt).result =
      .raised (e (c.base_urls.length - 1)) := by
  unfold async_make_get_request
  rw [failover_allRecoverable _ _ _ _ e c.base_urls 0 hne (by simp)
    (fun j hj => by simpa using hrec j (by simpa using hj))]

/-- Witness for C1: with two endpoints whose attempts fail with errors 10
and 20, the read raises 20 (the second endpoint's error). -/
theorem read_raises_last_error_witness :
    (async_make_get_request (ε := Nat) (ρ := Nat)
        { base_urls := ["http://a", "http://b"], timeout := 60, session := false }
        "/x" (fun i => .recoverable (10 * (i + 1)))).result = .raised 20 := by
  have h := read_raises_last_error (ε := Nat) (ρ := Nat)
    { base_urls := ["http://a", "http://b"], timeout := 60, session := false }
    "/x" (fun i => .recoverable (10 * (i + 1))) (fun i => 10 * (i + 1))
    (by decide) (fun i hi => by simp at hi; interval_cases i <;> rfl)
  simpa using h

/-- Claim C2: when every endpoint before the last fails recoverably and the
last endpoint succeeds, the read returns the last endpoint's response, and
a failure is logged (url/error pair, at error level) exactly once for each
preceding endpoint, in order. -/
theorem read_returns_last_success {ε ρ : Type} (c : ExtendedAsyncBeacon)
    (endpoint_uri : String) (attempt : Nat → AttemptResult ε (Dict ρ))
    (e : Nat → ε) (r : Dict ρ) (hne : c.base_urls ≠ [])
    (hrec : ∀ i, i < c.base_urls.length - 1 → attempt i = .recoverable (e i))
    (hsucc : attempt (c.base_urls.length - 1) = .success r) :
    (async_make_get_request c endpoint_uri attempt).result = .ok r ∧
    (async_make_get_request c endpoint_uri attempt).log =
      (List.range (c.base_urls.length - 1)).map
        (fun i => (c.base_urls.getD i "", e i)) := by
  unfold async_make_get_request
  rw [failover_lastSuccess _ _ _ _ e r c.base_urls 0 hne (by simp)
    (fun j hj => by simpa using hrec j (by simpa using hj)) hsucc]
  exact ⟨rfl, by simp⟩

/-- Witness for C2: three endpoints, the first two failing with errors 1
and 2, the third succeeding: the read returns the third's response and the
log holds exactly one entry per preceding endpoint, in order. -/
theorem read_returns_last_success_witness :
    (async_make_get_request (ε := Nat) (ρ := Nat)
        { base_urls := ["http://a", "http://b", "http://c"], timeout := 60,
          session := false } "/x"
        (fun i => if i < 2 then .recoverable (i + 1) else .success [("ok", 5)])).result
      = .ok [("ok", 5)] ∧
    (async_make_get_request (ε := Nat) (ρ := Nat)
        { base_urls := ["http://a", "http://b", "http://c"], timeout := 60,
          session := false } "/x"
        (fun i => if i < 2 then .recoverable (i + 1) else .success [("ok", 5)])).log
      = [("http://a", 1), ("http://b", 2)] := by
  have h := read_returns_last_success
    { base_urls := ["http://a", "http://b", "http://c"], timeout := 60, session := false }
    "/x" (fun i => if i < 2 then .recoverable (i + 1) else .success [("ok", 5)])
    (fun i => i + 1) [("ok", 5)] (by decide)
    (fun i hi => by simp at hi; interval_cases i <;> rfl) (by rfl)
  exact ⟨h.1, by rw [h.2]; rfl⟩

/-- Claim C3 (amended): a recoverable per-attempt failure is logged at error
level exactly when its position is not the last: when every attempt fails
recoverably, both the read and the write log exactly one url/error entry per
endpoint except the last (in order), and re-raise the last endpoint's error
without logging it. -/
theorem recoverable_failures_logged_except_last {ε ρ : Type}
    (c : ExtendedAsyncBeacon) (endpoint_uri : String)
    (attemptR : Nat → AttemptResult ε (Dict ρ)) (attemptW : Nat → AttemptResult ε Unit)
    (epoch validator_index : Int) (signature : String) (e f : Nat → ε)
    (hne : c.base_urls ≠ [])
    (hrecR : ∀ i, i < c.base_urls.length → attemptR i = .recoverable (e i))
    (hrecW : ∀ i, i < c.base_urls.length → attemptW i = .recoverable (f i)) :
    ((async_make_get_request c endpoint_uri attemptR).log =
        (List.range (c.base_urls.length - 1)).map
          (fun i => (c.base_urls.getD i "", e i)) ∧
      (async_make_get_request c endpoint_uri attemptR).result =
        .raised (e (c.base_urls.length - 1))) ∧
    ((submit_voluntary_exit c epoch validator_index signature attemptW).2.log =
        (List.range (c.base_urls.length - 1)).map
          (fun i => (c.base_urls.getD i "", f i)) ∧
      (submit_voluntary_exit c epoch validator_index signature attemptW).2.result =
        .raised (f (c.base_urls.length - 1))) := by
  constructor
  · unfold async_make_get_request
    rw [failover_allRecoverable _ _ _ _ e c.base_urls 0 hne (by simp)
      (fun j hj => by simpa using hrecR j (by simpa using hj))]
    exact ⟨by simp, rfl⟩
  · unfold submit_voluntary_exit
    dsimp only
    rw [failover_allRecoverable _ _ _ _ f c.base_urls 0 hne (by simp)
      (fun j hj => by simpa using hrecW j (by simpa using hj))]
    exact ⟨by simp, rfl⟩

/-- Witness for C3 (amended): two endpoints both failing recoverably (read
errors 1 then 2, write errors 3 then 4): for both operations exactly the
first endpoint's failure is logged and the second endpoint's error is
raised. -/
theorem recoverable_failures_logged_except_last_witness :
    (async_make_get_request (ε := Nat) (ρ := Nat)
        { base_urls := ["http://a", "http://b"], timeout := 60, session := false }
        "/x" (fun i => .recoverable (i + 1))).log = [("http://a", 1)] ∧
    (async_make_get_request (ε := Nat) (ρ := Nat)
        { base_urls := ["http://a", "http://b"], timeout := 60, session := false }
        "/x" (fun i => .recoverable (i + 1))).result = .raised 2 ∧
    (submit_voluntary_exit (ε := Nat)
        { base_urls := ["http://a", "http://b"], timeout := 60, session := false }
        1 2 "0xsig" (fun i => .recoverable (i + 3))).2.log = [("http://a", 3)] ∧
    (submit_voluntary_exit (ε := Nat)
        { base_urls := ["http://a", "http://b"], timeout := 60, session := false }
        1 2 "0xsig" (fun i => .recoverable (i + 3))).2.result = .raised 4 := by
  have h := recoverable_failures_logged_except_last (ε := Nat) (ρ := Nat)
    { base_urls := ["http://a", "http://b"], timeout := 60, session := false }
    "/x" (fun i => .recoverable (i + 1)) (fun i => .recoverable (i + 3))
    1 2 "0xsig" (fun i => i + 1) (fun i => i + 3)
    (by decide)
    (fun i hi => by simp at hi; interval_cases i <;> rfl)
    (fun i hi => by simp at hi; interval_cases i <;> rfl)
  refine ⟨?_, ?_, ?_, ?_⟩
  · rw [h.1.1]; rfl
  · simpa using h.1.2
  · rw [h.2.1]; rfl
  · simpa using h.2.2

/-- Counterexample for C3 as stated: with a single endpoint failing
recoverably (error 7), the failure happens at the last position of the
list, the error is re-raised — and nothing is logged: the log is empty,
so the claim that every recoverable failure (including at the last
position) is logged before re-raise is false on the code. -/
theorem last_failure_not_logged_counterexample :
    (async_make_get_request (ε := Nat) (ρ := Nat)
        { base_urls := ["http://only"], timeout := 60, session := false }
        "/x" (fun _ => .recoverable 7)).result = .raised 7 ∧
    (async_make_get_request (ε := Nat) (ρ := Nat)
        { base_urls := ["http://only"], timeout := 60, session := false }
        "/x" (fun _ => .recoverable 7)).log = [] ∧
    (submit_voluntary_exit (ε := Nat)
        { base_urls := ["http://only"], timeout := 60, session := false }
        1 2 "0xsig" (fun _ => .recoverable 7)).2.result = .raised 7 ∧
    (submit_voluntary_exit (ε := Nat)
        { base_urls := ["http://only"], timeout := 60, session := false }
        1 2 "0xsig" (fun _ => .recoverable 7)).2.log = [] := by
  refine ⟨?_, ?_, ?_, ?_⟩ <;> rfl

/-- Claim C4: with an empty endpoint list, `get_validators_by_ids` returns
the empty dict without raising (and without logging or issuing requests). -/
theorem empty_endpoints_read_returns_empty {ε ρ : Type} (timeout : Nat)
    (session : Bool) (validator_ids : List String) (state_id : String)
    (attempt : Nat → AttemptResult ε (Dict ρ)) :
    get_validators_by_ids
        { base_urls := [], timeout := timeout, session := session }
        validator_ids state_id attempt =
      { result := .ok [], log := [], requests := [] } := rfl

/-- Claim C5 (amended): a client constructed with an empty endpoint list
does not report an error on first use: the read operation returns the
empty dict and the write operation returns `None`, in both cases issuing
no request and logging nothing. -/
theorem empty_endpoints_first_use_no_error {ε ρ : Type} (timeout : Nat)
    (session : Bool) (validator_ids : List String) (state_id : String)
    (attemptR : Nat → AttemptResult ε (Dict ρ)) (attemptW : Nat → AttemptResult ε Unit)
    (epoch validator_index : Int) (signature : String) :
    get_validators_by_ids
        { base_urls := [], timeout := timeout, session := session }
        validator_ids state_id attemptR =
      { result := .ok [], log := [], requests := [] } ∧
    (submit_voluntary_exit
        { base_urls := [], timeout := timeout, session := session }
        epoch validator_index signature attemptW).2 =
      { result := .ok (), log := [], requests := [] } :=
  ⟨rfl, rfl⟩

/-- Counterexample for C5 as stated: a client with no endpoints does not
report "no endpoints available" (or any error) on first use — the read
returns the empty dict and the write returns `None`, neither raising. -/
theorem empty_endpoints_no_error_counterexample :
    (get_validators_by_ids (ε := Nat) (ρ := Nat)
        { base_urls := [], timeout := 60, session := false }
        ["1"] "head" (fun _ => .recoverable 0)).result = .ok [] ∧
    (submit_voluntary_exit (ε := Nat)
        { base_urls := [], timeout := 60, session := false }
        1 2 "0xsig" (fun _ => .recoverable 0)).2.result = .ok () :=
  ⟨rfl, rfl⟩

/-- Claim C6 (amended): every read attempt is a GET issued with the
configured timeout captured at construction (through the shared session
when one is configured, else per-request); every write attempt is a POST
issued through a fresh session with no timeout argument at all (the
transport's own default applies, not the configured one). -/
theorem attempt_timeouts {ε ρ : Type} (c : ExtendedAsyncBeacon)
    (endpoint_uri : String) (attemptR : Nat → AttemptResult ε (Dict ρ))
    (attemptW : Nat → AttemptResult ε Unit)
    (epoch validator_index : Int) (signature : String) :
    (∀ q ∈ (async_make_get_request c endpoint_uri attemptR).requests,
      q.method = "GET" ∧ q.timeout = some c.timeout ∧
        q.uses_shared_session = c.session) ∧
    (∀ q ∈ (submit_voluntary_exit c epoch validator_index signature attemptW).2.requests,
      q.method = "POST" ∧ q.timeout = none ∧ q.uses_shared_session = false) := by
  constructor
  · intro q hq
    obtain ⟨url, _, hqe⟩ := failover_requests_mem _ _ _ _ c.base_urls 0 q hq
    subst hqe
    exact ⟨rfl, rfl, rfl⟩
  · intro q hq
    obtain ⟨url, _, hqe⟩ := failover_requests_mem _ _ _ _ c.base_urls 0 q hq
    subst hqe
    exact ⟨rfl, rfl, rfl⟩

/-- Witness for C6 (amended): concrete one-endpoint runs; the read's single
request carries timeout 60, the write's single request carries no timeout. -/
theorem attempt_timeouts_witness :
    ({ method := "GET", url := "http://u", path := "/x", timeout := some 60,
       uses_shared_session := false, body := none } : IssuedRequest).timeout
      = some 60 ∧
    ({ method := "POST", url := "http://u", path := GET_VOLUNTARY_EXITS,
       timeout := none, uses_shared_session := false,
       body := some (voluntary_exit_data 1 2 "0xsig") } : IssuedRequest).timeout
      = none := by
  have h := attempt_timeouts (ε := Nat) (ρ := Nat)
    { base_urls := ["http://u"], timeout := 60, session := false } "/x"
    (fun _ => .success []) (fun _ => .success ()) 1 2 "0xsig"
  exact ⟨(h.1 _ (by simp [async_make_get_request, failover])).2.1,
         (h.2 _ (by simp [submit_voluntary_exit, failover])).2.1⟩

/-- Counterexample for C6 as stated: on a write attempt the request is not
issued with the configured timeout (60): the single POST request of this
concrete run carries no timeout argument, so the universal claim over both
operations is false on the code. -/
theorem write_attempt_ignores_timeout_counterexample :
    ((submit_voluntary_exit (ε := Nat)
        { base_urls := ["http://w"], timeout := 60, session := false }
        12345 7 "0xabc" (fun _ => .success ())).2.requests.all
      (fun q => q.timeout == some 60)) = false := by
  rfl

/-- Claim C7: `get_validators_by_ids(["100", "200"])` with the default
state reference builds the endpoint
`/eth/v1/beacon/states/head/validators?id=100&id=200` (query parameter
`id` repeated per identifier), and the first request issued targets the
primary (first-listed) endpoint with that path. -/
theorem get_validators_request_construction {ε ρ : Type}
    (c : ExtendedAsyncBeacon) (attempt : Nat → AttemptResult ε (Dict ρ))
    (u : String) (rest : List String) (hurls : c.base_urls = u :: rest) :
    GET_VALIDATORS_format "head" ("?id=" ++ String.intercalate "&id=" ["100", "200"])
      = "/eth/v1/beacon/states/head/validators?id=100&id=200" ∧
    (get_validators_by_ids c ["100", "200"] "head" attempt).requests.head? =
      some { method := "GET", url := u,
             path := "/eth/v1/beacon/states/head/validators?id=100&id=200",
             timeout := some c.timeout, uses_shared_session := c.session,
             body := none } := by
  refine ⟨rfl, ?_⟩
  unfold get_validators_by_ids async_make_get_request
  rw [hurls, failover_requests_head]
  rfl

/-- Witness for C7: a concrete two-endpoint client; the first issued
request is the GET for
`/eth/v1/beacon/states/head/validators?id=100&id=200` against the
first-listed endpoint. -/
theorem get_validators_request_construction_witness :
    (get_validators_by_ids (ε := Nat) (ρ := Nat)
        { base_urls := ["http://primary", "http://secondary"], timeout := 60,
          session := false }
        ["100", "200"] "head" (fun _ => .success [])).requests.head? =
      some { method := "GET", url := "http://primary",
             path := "/eth/v1/beacon/states/head/validators?id=100&id=200",
             timeout := some 60, uses_shared_session := false,
             body := none } :=
  (get_validators_request_construction
    { base_urls := ["http://primary", "http://secondary"], timeout := 60,
      session := false }
    (fun _ => .success []) "http://primary" ["http://secondary"] rfl).2

/-- Claim C8: `submit_voluntary_exit` serializes epoch and validator index
as decimal strings and the signature as given: the body it builds is
exactly the message/signature record with `toString` of the integers, its
JSON rendering is the expected object, and every POST request the call
issues carries that body. -/
theorem voluntary_exit_body {ε : Type} (c : ExtendedAsyncBeacon)
    (epoch validator_index : Int) (signature : String)
    (attempt : Nat → AttemptResult ε Unit) :
    (submit_voluntary_exit c epoch validator_index signature attempt).1 =
      { message := { epoch := toString epoch,
                     validator_index := toString validator_index },
        signature := signature } ∧
    (submit_voluntary_exit c epoch validator_index signature attempt).1.render =
      "\x7b\"message\": \x7b\"epoch\": \"" ++ toString epoch ++
        "\", \"validator_index\": \"" ++ toString validator_index ++
        "\"\x7d, \"signature\": \"" ++ signature ++ "\"\x7d" ∧
    (∀ q ∈ (submit_voluntary_exit c epoch validator_index signature attempt).2.requests,
      q.body = some (voluntary_exit_data epoch validator_index signature)) := by
  refine ⟨rfl, rfl, ?_⟩
  intro q hq
  obtain ⟨url, _, hqe⟩ := failover_requests_mem _ _ _ _ c.base_urls 0 q hq
  subst hqe
  rfl

/-- Witness for C8: epoch 12345, validator index 7, signature `0xabc...`
render to the exact JSON object of the claim (with `json.dumps` default
spacing), and the single POST request of a concrete run carries that body. -/
theorem voluntary_exit_body_witness :
    (voluntary_exit_data 12345 7 "0xabc...").render =
      "\x7b\"message\": \x7b\"epoch\": \"12345\", \"validator_index\": \"7\"\x7d, \"signature\": \"0xabc...\"\x7d" ∧
    ({ method := "POST", url := "http://e", path := GET_VOLUNTARY_EXITS,
       timeout := none, uses_shared_session := false,
       body := some (voluntary_exit_data 12345 7 "0xabc...") } : IssuedRequest).body
      = some (voluntary_exit_data 12345 7 "0xabc...") := by
  have h := voluntary_exit_body (ε := Nat)
    { base_urls := ["http://e"], timeout := 60, session := false }
    12345 7 "0xabc..." (fun _ => .success ())
  refine ⟨?_, h.2.2 _ (by simp [submit_voluntary_exit, failover])⟩
  have hr := h.2.1
  simpa using hr

/-- Claim C10: with an empty endpoint list, `submit_voluntary_exit`
returns `None` without raising, without logging and without issuing any
request — the same `.ok ()` outcome a successful submission produces, so
a zero-endpoint write is indistinguishable from a successful one at the
call site. -/
theorem empty_endpoints_write_silent {ε : Type} (timeout : Nat)
    (session : Bool) (epoch validator_index : Int) (signature : String)
    (attempt : Nat → AttemptResult ε Unit) :
    (submit_voluntary_exit
        { base_urls := [], timeout := timeout, session := session }
        epoch validator_index signature attempt).2 =
      { result := .ok (), log := [], requests := [] } ∧
    (submit_voluntary_exit
        { base_urls := [], timeout := timeout, session := session }
        epoch validator_index signature attempt).2.result =
      (submit_voluntary_exit (ε := ε)
          { base_urls := ["http://ok"], timeout := timeout, session := session }
          epoch validator_index signature (fun _ => .success ())).2.result :=
  ⟨rfl, rfl⟩

end SwUtils
